import Mathlib

/-!
Shallow embedding of the rxde repository (a Go package extracting flat JSON
records from line-oriented text via regex rules).  Text is modelled as lists
of byte values (`Bytes := List Nat`); Go machine integers are modelled as
`Nat`/`Int` with explicit bounds; Go `float64` arithmetic in the data-size
conversion is modelled by exact rationals (`QVal`), which is exact for every
value exercised here (all unit multipliers and results are integers exactly
representable in binary64).  Regular expressions from the Go regexp package are
modelled abstractly as `CompiledRegex` bundles of matcher functions; the time
package
(used only by the time/duration rule types, which no theorem below inspects)
is abstracted as a `TimeLib` parameter.
-/

set_option autoImplicit false

namespace Rxde

/-- Byte strings: Go `[]byte` / `string` values as lists of byte values. -/
abbrev Bytes := List Nat

/-- Bytes of an ASCII string literal (all literals in this file are ASCII,
where the Unicode code point equals the single UTF-8 byte). -/
def strBytes (s : String) : Bytes := s.data.map Char.toNat

/-- Errors of the Go code: the package-level sentinel errors of parser.go and
rule.go, the strconv error classes, the fmt.Errorf wrapper of rule.Parse, and
an abstract scanner I/O error. -/
inductive GoErr where
  | emptyRules
  | repeatedRuleName
  | invalidParsersNumber
  | nilStartRegex
  | noRuleName
  | invalidType
  | invalidMatchNum
  | invalidDstFormat
  | invalidSrcFormat
  | noMatch
  | badNum (input : Bytes)
  | outOfRange (input : Bytes)
  | wrapped (ruleName input : Bytes) (cause : GoErr)
  | ioErr (code : Nat)
  deriving DecidableEq

/-- Decides whether `needle` is a prefix of `hay`. -/
def isPrefixB : Bytes → Bytes → Bool
  | [], _ => true
  | _ :: _, [] => false
  | a :: as, b :: bs => a == b && isPrefixB as bs

/-- Position of the first occurrence of `needle` in `hay`, if any. -/
def subPos (needle : Bytes) : Bytes → Option Nat
  | [] => if isPrefixB needle [] then some 0 else none
  | a :: t =>
    if isPrefixB needle (a :: t) then some 0
    else (subPos needle t).map (· + 1)

/-- Go bytes.Index: the index of the first instance of `needle` in `hay`,
or -1 if `needle` is not present.  An empty `needle` yields 0. -/
def bytesIndex (hay needle : Bytes) : Int :=
  match subPos needle hay with
  | some i => (i : Int)
  | none => -1

/-- ASCII lower-casing, byte by byte: Go strings.ToLower restricted to the
ASCII inputs this code feeds it. -/
def toLowerB (s : Bytes) : Bytes :=
  s.map fun c => if 65 ≤ c ∧ c ≤ 90 then c + 32 else c

/-- Decimal digit bytes. -/
def isDigitB (c : Nat) : Bool := 48 ≤ c && c ≤ 57

/-- Go regexp `\s`: space, tab, newline, form feed, carriage return. -/
def isSpaceB (c : Nat) : Bool := c == 32 || c == 9 || c == 10 || c == 12 || c == 13

/-- Character class `[a-z,A-Z]` of the data-size unit regex (note the comma
is part of the class in the source pattern). -/
def isUnitChar (c : Nat) : Bool :=
  (97 ≤ c && c ≤ 122) || c == 44 || (65 ≤ c && c ≤ 90)

/-- Decimal digits of a natural number as ASCII bytes. -/
def natToDec (n : Nat) : Bytes := (Nat.toDigits 10 n).map Char.toNat

/-- Go strconv.AppendInt with base 10. -/
def appendInt (i : Int) : Bytes :=
  if i < 0 then 45 :: natToDec i.natAbs else natToDec i.natAbs

/-- Value of a nonempty all-digit byte string, or none. -/
def decDigitsVal : Bytes → Option Nat
  | [] => none
  | [c] => if isDigitB c then some (c - 48) else none
  | c :: rest =>
    if isDigitB c then
      match decDigitsVal rest with
      | some v => some ((c - 48) * 10 ^ rest.length + v)
      | none => none
    else none

/-- Go strconv.ParseInt(s, 10, 64): on a syntax error the value 0 is
returned, on overflow the value is clamped to the int64 range; in each error
case ParseInt also returns the corresponding strconv error. -/
def goParseInt (s : Bytes) : Int × Option GoErr :=
  match s with
  | [] => (0, some (.badNum s))
  | c :: rest =>
    let (neg, body) :=
      if c = 43 then (false, rest)
      else if c = 45 then (true, rest)
      else (false, s)
    match decDigitsVal body with
    | none => (0, some (.badNum s))
    | some n =>
      if neg then
        if n > 2 ^ 63 then (-(2 ^ 63 : Int), some (.outOfRange s))
        else (-(n : Int), none)
      else
        if n > 2 ^ 63 - 1 then ((2 ^ 63 - 1 : Int), some (.outOfRange s))
        else ((n : Int), none)

/-- Go strconv.ParseUint(s, 10, 64): no sign is permitted; on overflow the
value is clamped to the uint64 range. -/
def goParseUint (s : Bytes) : Nat × Option GoErr :=
  match decDigitsVal s with
  | none => (0, some (.badNum s))
  | some n =>
    if n > 2 ^ 64 - 1 then (2 ^ 64 - 1, some (.outOfRange s))
    else (n, none)

/-- Go strconv.ParseBool: exactly these twelve literal spellings. -/
def goParseBool (s : Bytes) : Bool × Option GoErr :=
  if s = strBytes "1" ∨ s = strBytes "t" ∨ s = strBytes "T" ∨
     s = strBytes "TRUE" ∨ s = strBytes "true" ∨ s = strBytes "True" then
    (true, none)
  else if s = strBytes "0" ∨ s = strBytes "f" ∨ s = strBytes "F" ∨
     s = strBytes "FALSE" ∨ s = strBytes "false" ∨ s = strBytes "False" then
    (false, none)
  else (false, some (.badNum s))

/-- Largest `k` with `p ^ k ∣ n` (0 for `n = 0` or `p < 2`), via fuel. -/
def countFactorAux (p : Nat) : Nat → Nat → Nat
  | 0, _ => 0
  | fuel + 1, n =>
    if 2 ≤ p ∧ n ≠ 0 ∧ n % p = 0 then countFactorAux p fuel (n / p) + 1 else 0

/-- Multiplicity of the prime `p` in `n`. -/
def countFactor (p n : Nat) : Nat := countFactorAux p n n

/-- The Euclid algorithm with explicit fuel, so the kernel can evaluate it. -/
def gcdFuel : Nat → Nat → Nat → Nat
  | 0, _, b => b
  | fuel + 1, a, b => if a = 0 then b else gcdFuel fuel (b % a) a

/-- Greatest common divisor (kernel-evaluable). -/
def qgcd (a b : Nat) : Nat := gcdFuel (a + b + 1) a b

/-- An exact rational value standing in for a Go `float64`: a numerator and
a positive denominator, not necessarily reduced.  Every float value the
claims below exercise is exactly such a rational, and every float operation
they exercise is exact, so this model coincides with binary64 arithmetic on
all inputs at stake. -/
structure QVal where
  num : Int
  den : Nat
  deriving DecidableEq

/-- Fraction digits of `m` padded with leading zeros to width `k`. -/
def padZeros (k m : Nat) : Bytes :=
  let ds := natToDec m
  List.replicate (k - ds.length) 48 ++ ds

/-- Go strconv.AppendFloat(v, fmt f, prec -1, 64) on the exact-decimal fragment: for
a rational whose reduced denominator divides a power of ten this prints the
exact terminating decimal expansion with no trailing zeros, which is the
shortest round-tripping fixed-point form whenever the binary64 value is exactly that
decimal (true of every value produced by the claims below).  A reduced
denominator with another prime factor cannot arise from such a float; that
branch prints a fraction marker and is never reached here. -/
def formatRatF (q : QVal) : Bytes :=
  let sgn : Bytes := if q.num < 0 then [45] else []
  let g := qgcd q.num.natAbs q.den
  let n := q.num.natAbs / g
  let d := q.den / g
  let a := countFactor 2 d
  let b := countFactor 5 d
  if 2 ^ a * 5 ^ b = d then
    let k := max a b
    let m := n * 10 ^ k / d
    if k = 0 then sgn ++ natToDec m
    else sgn ++ natToDec (m / 10 ^ k) ++ [46] ++ padZeros k (m % 10 ^ k)
  else sgn ++ natToDec n ++ [47] ++ natToDec d

/-- The hex digit table of rule.go: "0123456789abcdef". -/
def hexDigit (d : Nat) : Nat := (strBytes "0123456789abcdef").getD d 48

/-- Per-byte escaping of the jsonString loop body of rule.go: a byte at or above
0x20 other than backslash and double quote passes through; quote and
backslash get a backslash escape; the five named control escapes, then
a four-hex-digit escape for the remaining control bytes. -/
def escByte (c : Nat) : Bytes :=
  if 0x20 ≤ c ∧ c ≠ 92 ∧ c ≠ 34 then [c]
  else if c = 34 then [92, 34]
  else if c = 92 then [92, 92]
  else if c = 10 then [92, 110]
  else if c = 12 then [92, 102]
  else if c = 8 then [92, 98]
  else if c = 13 then [92, 114]
  else if c = 9 then [92, 116]
  else [92, 117, 48, 48, hexDigit (c / 16), hexDigit (c % 16)]

/-- Body of jsonString: the source loop over the input bytes. -/
def jsonStringAux : Bytes → Bytes
  | [] => []
  | c :: rest => escByte c ++ jsonStringAux rest

/-- rule.go jsonString: wrap the escaped bytes in double quotes. -/
def jsonString (b : Bytes) : Bytes := [34] ++ jsonStringAux b ++ [34]

/-- appendJSON of the rxde package: naive flat-JSON appender.  A nil/empty
buffer is initialized to "\x7b\x7d"; the pair ,"key":value (comma only when the
object is nonempty) is inserted immediately before the final closing brace.
`data = none` models a nil Go slice. -/
def appendJSON (data : Option Bytes) (key value : Bytes) : Bytes :=
  let d := data.getD []
  let d := if d.length = 0 then [123, 125] else d
  let dsz := d.length
  let buf := (if dsz > 2 then [44] else []) ++ [34] ++ key ++ [34] ++ [58] ++ value
  d.take (dsz - 1) ++ buf ++ d.drop (dsz - 1)

/-- The dataUnits table of rule.go: unit-name string to byte multiplier.
Decimal units are powers of 1000, binary units powers of 1024; all keys are
lower case. -/
def dataUnits (u : Bytes) : Option Nat :=
  if u = strBytes "" then some 1
  else if u = strBytes "b" then some 1
  else if u = strBytes "byte" then some 1
  else if u = strBytes "k" then some 1000
  else if u = strBytes "kb" then some 1000
  else if u = strBytes "kilo" then some 1000
  else if u = strBytes "kilobyte" then some 1000
  else if u = strBytes "kilobytes" then some 1000
  else if u = strBytes "m" then some 1000000
  else if u = strBytes "mb" then some 1000000
  else if u = strBytes "mega" then some 1000000
  else if u = strBytes "megabyte" then some 1000000
  else if u = strBytes "megabytes" then some 1000000
  else if u = strBytes "g" then some 1000000000
  else if u = strBytes "gb" then some 1000000000
  else if u = strBytes "giga" then some 1000000000
  else if u = strBytes "gigabyte" then some 1000000000
  else if u = strBytes "gigabytes" then some 1000000000
  else if u = strBytes "t" then some 1000000000000
  else if u = strBytes "tb" then some 1000000000000
  else if u = strBytes "tera" then some 1000000000000
  else if u = strBytes "terabyte" then some 1000000000000
  else if u = strBytes "terabytes" then some 1000000000000
  else if u = strBytes "p" then some 1000000000000000
  else if u = strBytes "pb" then some 1000000000000000
  else if u = strBytes "peta" then some 1000000000000000
  else if u = strBytes "petabyte" then some 1000000000000000
  else if u = strBytes "petabytes" then some 1000000000000000
  else if u = strBytes "ki" then some 1024
  else if u = strBytes "kib" then some 1024
  else if u = strBytes "kibibyte" then some 1024
  else if u = strBytes "kibibytes" then some 1024
  else if u = strBytes "mi" then some 1048576
  else if u = strBytes "mib" then some 1048576
  else if u = strBytes "mebibyte" then some 1048576
  else if u = strBytes "mebibytes" then some 1048576
  else if u = strBytes "gi" then some 1073741824
  else if u = strBytes "gib" then some 1073741824
  else if u = strBytes "gibibyte" then some 1073741824
  else if u = strBytes "gibibytes" then some 1073741824
  else if u = strBytes "ti" then some 1099511627776
  else if u = strBytes "tib" then some 1099511627776
  else if u = strBytes "tebibyte" then some 1099511627776
  else if u = strBytes "tebibytes" then some 1099511627776
  else if u = strBytes "pi" then some 1125899906842624
  else if u = strBytes "pib" then some 1125899906842624
  else if u = strBytes "pebibyte" then some 1125899906842624
  else if u = strBytes "pebibytes" then some 1125899906842624
  else none

/-- The numeric body `\d*\.?\d+` of the rexUnit pattern, matched greedily at
the head of `l`; returns the matched bytes and the remainder.  Greedy
matching with backtracking of the Go pattern reduces to: take the leading
digit run, then a dot followed by a nonempty digit run if present, else the
digit run alone. -/
def numBodyAt (l : Bytes) : Option (Bytes × Bytes) :=
  let d1 := l.takeWhile isDigitB
  let r1 := l.dropWhile isDigitB
  match r1 with
  | 46 :: r2 =>
    let d2 := r2.takeWhile isDigitB
    if d2 ≠ [] then some (d1 ++ [46] ++ d2, r2.dropWhile isDigitB)
    else if d1 ≠ [] then some (d1, r1)
    else none
  | _ => if d1 ≠ [] then some (d1, r1) else none

/-- The full number token `[-+]?\d*\.?\d+` matched at the head of `l`. -/
def numAt (l : Bytes) : Option (Bytes × Bytes) :=
  match l with
  | c :: rest =>
    if c = 43 ∨ c = 45 then (numBodyAt rest).map fun p => (c :: p.1, p.2)
    else numBodyAt l
  | [] => none

/-- Leftmost match of the rexUnit pattern of rule.go
`([-+]?\d*\.?\d+)\s*([a-z,A-Z]*)`: the first number token in `l` and the
unit token after any whitespace; none when no number occurs. -/
def rexUnitFind : Bytes → Option (Bytes × Bytes)
  | [] => none
  | c :: rest =>
    match numAt (c :: rest) with
    | some (num, after) =>
      some (num, (after.dropWhile isSpaceB).takeWhile isUnitChar)
    | none => rexUnitFind rest

/-- Decimal value of a number token produced by `numAt` (Go ParseFloat on
such a token is exact whenever the value is, which holds for every input of
the claims below). -/
def decTokenVal (s : Bytes) : Option QVal :=
  match s with
  | [] => none
  | c :: rest =>
    let (neg, body) :=
      if c = 45 then (true, rest) else if c = 43 then (false, rest) else (false, s)
    let ip := body.takeWhile isDigitB
    let r1 := body.dropWhile isDigitB
    let fp : Option (Nat × Nat) :=
      match r1 with
      | [] => if ip ≠ [] then some (0, 0) else none
      | 46 :: r2 =>
        if r2 ≠ [] ∧ r2.all isDigitB then
          match decDigitsVal r2 with
          | some fv => some (fv, r2.length)
          | none => none
        else none
      | _ => none
    match fp with
    | none => none
    | some (fv, fl) =>
      let iv := (decDigitsVal ip).getD 0
      let n : Int := (iv * 10 ^ fl + fv : Nat)
      some ⟨if neg then -n else n, 10 ^ fl⟩

/-- The rule configuration of rule.go (`Typ` is the Go field `Type`, which is
a Lean keyword). -/
structure RuleConfig where
  Name : Bytes
  Typ : Bytes
  From : Bytes
  To : Bytes
  Regex : Bytes
  deriving DecidableEq

/-- parseDataSize of rule.go: extract the leading number and trailing unit
token with rexUnit, resolve the source unit from `From` if set, otherwise
from the lower-cased trailing token, scale to bytes, divide by the `To`
unit and print the float. -/
def parseDataSize (c : RuleConfig) (s : Bytes) : Option Bytes × Option GoErr :=
  match rexUnitFind s with
  | none => (none, some .noMatch)
  | some (numTok, unitTok) =>
    match decTokenVal numTok with
    | none => (none, some (.badNum numTok))
    | some val =>
      let u := if c.From = [] then toLowerB unitTok else c.From
      match dataUnits u with
      | none => (none, some .invalidSrcFormat)
      | some unit =>
        let val : QVal := ⟨val.num * unit, val.den⟩
        match dataUnits c.To with
        | none => (none, some .invalidDstFormat)
        | some unit2 => (some (formatRatF ⟨val.num, val.den * unit2⟩), none)

/-- A compiled regular expression of the Go regexp package, abstracted as its
observable behaviour: boolean matching, first-submatch extraction (full match
followed by the capture groups), all-submatch extraction, and the number of
capture groups. -/
structure CompiledRegex where
  isMatch : Bytes → Bool
  findSubmatch : Bytes → Option (List Bytes)
  findAllSubmatch : Bytes → List (List Bytes)
  numSubexp : Nat

/-- The Go time package as used by rule.parseTime and rule.parseDuration,
abstracted: each takes the From and To fields of the rule and the extracted text
and yields optional value bytes and an optional error.  No claim below
depends on either function. -/
structure TimeLib where
  parseTime : Bytes → Bytes → Bytes → Option Bytes × Option GoErr
  parseDuration : Bytes → Bytes → Bytes → Option Bytes × Option GoErr

/-- rule.Rule: an optional compiled extraction pattern plus its config. -/
structure Rule where
  regex : Option CompiledRegex
  config : RuleConfig

/-- rule.New: compile the optional extraction pattern, require exactly one
capture group when present, then require a nonempty name and type. -/
def RuleNew (compile : Bytes → Except GoErr CompiledRegex) (c : RuleConfig) :
    Except GoErr Rule :=
  match (if c.Regex = [] then Except.ok none
         else Except.bind (compile c.Regex) fun rx =>
           if rx.numSubexp ≠ 1 then Except.error .invalidMatchNum
           else Except.ok (some rx)) with
  | .error e => .error e
  | .ok rxo =>
    if c.Name = [] then .error .noRuleName
    else if c.Typ = [] then .error .invalidType
    else .ok ⟨rxo, c⟩

/-- The rule type tags of rule.go. -/
def tInt : Bytes := strBytes "int"
def tUint : Bytes := strBytes "uint"
def tFloat : Bytes := strBytes "float"
def tNumber : Bytes := strBytes "number"
def tString : Bytes := strBytes "string"
def tBool : Bytes := strBytes "bool"
def tTime : Bytes := strBytes "time"
def tDuration : Bytes := strBytes "duration"
def tDataSize : Bytes := strBytes "datasize"

/-- The type switch of rule.Parse: convert the extracted text `s` to the
JSON scalar bytes for the type of the rule.  As in the source, the numeric cases
append the (zero or clamped) parsed value even when the parse failed. -/
def convertVal (lib : TimeLib) (r : Rule) (s : Bytes) : Option Bytes × Option GoErr :=
  if r.config.Typ = tString then (some (jsonString s), none)
  else if r.config.Typ = tInt then
    let p := goParseInt s
    (some (appendInt p.1), p.2)
  else if r.config.Typ = tUint then
    let p := goParseUint s
    (some (natToDec p.1), p.2)
  else if r.config.Typ = tFloat ∨ r.config.Typ = tNumber then
    match decTokenVal s with
    | some q => (some (formatRatF q), none)
    | none => (some (natToDec 0), some (.badNum s))
  else if r.config.Typ = tBool then
    let p := goParseBool s
    (some (if p.1 then strBytes "true" else strBytes "false"), p.2)
  else if r.config.Typ = tTime then lib.parseTime r.config.From r.config.To s
  else if r.config.Typ = tDuration then lib.parseDuration r.config.From r.config.To s
  else if r.config.Typ = tDataSize then parseDataSize r.config s
  else (none, some .invalidType)

/-- rule.Parse: extract with the pattern of the rule when present (no match gives
(nil, false, nil)); an empty extracted text gives (nil, true, nil) with no
conversion attempted; otherwise convert and wrap any conversion error with
the rule name and the input text. -/
def RuleParse (lib : TimeLib) (r : Rule) (b : Bytes) : Option Bytes × Bool × Option GoErr :=
  match r.regex with
  | some rx =>
    match rx.findSubmatch b with
    | none => (none, false, none)
    | some m =>
      let s := (m.get? 1).getD []
      ruleParseTail lib r s
  | none => ruleParseTail lib r b
where
  /-- The part of rule.Parse after extraction: empty-input check, conversion,
  error wrapping. -/
  ruleParseTail (lib : TimeLib) (r : Rule) (s : Bytes) : Option Bytes × Bool × Option GoErr :=
    if s = [] then (none, true, none)
    else
      let p := convertVal lib r s
      (p.1, true, p.2.map fun e => .wrapped r.config.Name s e)

/-- The parser configuration of parser.go (empty bytes model the empty
string, meaning the pattern is unset). -/
structure Config where
  FindAll : Bool
  StartMatch : Bytes
  StopMatch : Bytes
  SkipMatch : Bytes
  ResumeMatch : Bytes
  Regex : Bytes
  Rules : List RuleConfig

/-- The compiled parser of parser.go. -/
structure Parser where
  startMatch : Option CompiledRegex
  stopMatch : Option CompiledRegex
  skipMatch : Option CompiledRegex
  resumeMatch : Option CompiledRegex
  regex : Option CompiledRegex
  rules : List Rule
  config : Config

/-- Compile a pattern unless it is unset (the `if config.X != ""` blocks of
New that assign a freshly nil field). -/
def compileOpt (compile : Bytes → Except GoErr CompiledRegex) (pat : Bytes) :
    Except GoErr (Option CompiledRegex) :=
  if pat = [] then Except.ok none else Except.map some (compile pat)

/-- The rule-building loop of New: duplicate names are rejected via a seen
set, then each rule is compiled with rule.New, in order. -/
def buildRules (compile : Bytes → Except GoErr CompiledRegex) :
    List Bytes → List RuleConfig → Except GoErr (List Rule)
  | _, [] => .ok []
  | seen, rc :: rest =>
    if rc.Name ∈ seen then .error .repeatedRuleName
    else
      match RuleNew compile rc with
      | .error e => .error e
      | .ok r => Except.map (r :: ·) (buildRules compile (rc.Name :: seen) rest)

/-- New of parser.go, reproducing the source verbatim, including its two
misdirected assignments: the compiled ResumeMatch is stored into p.stopMatch
(line 82) and the compiled Regex is also stored into p.stopMatch (line 89),
so p.resumeMatch and p.regex are never assigned and remain nil. -/
def New (compile : Bytes → Except GoErr CompiledRegex) (config : Config) :
    Except GoErr Parser :=
  Except.bind (compileOpt compile config.StartMatch) fun startMatch =>
  Except.bind (compileOpt compile config.StopMatch) fun stopMatch =>
  Except.bind (compileOpt compile config.SkipMatch) fun skipMatch =>
  Except.bind (if config.ResumeMatch = [] then Except.ok stopMatch
               else Except.map some (compile config.ResumeMatch)) fun stopMatch =>
  Except.bind (if config.Regex = [] then Except.ok stopMatch
               else Except.map some (compile config.Regex)) fun stopMatch =>
  if config.Rules = [] then Except.error .emptyRules
  else
    Except.bind (buildRules compile [] config.Rules) fun rules =>
    let regex : Option CompiledRegex := none
    let resumeMatch : Option CompiledRegex := none
    if regex.isNone && startMatch.isNone then Except.error .nilStartRegex
    else Except.ok ⟨startMatch, stopMatch, skipMatch, resumeMatch, regex, rules, config⟩

/-- rxde.Result: the accumulated flat-JSON buffer (none models the nil Go
slice) and the collected errors. -/
structure Result where
  Data : Option Bytes
  Errors : List GoErr
  deriving DecidableEq

/-- One iteration of the scan loops on which Scan() returned true: either a
successfully scanned line, or — the `fail` case — an iteration on which the
scanner had already recorded a read error, so the in-loop scanner.Err()
check observes it.  With bufio.Scanner the `fail` case arises only when the
underlying Read returns data together with its error: the buffered data lets
Scan() still return true while Err() is already non-nil.  The end of the
event list is Scan() returning false, which covers BOTH clean end of input
AND the common failure where Read returns no data with its error: in that
case Scan() returns false and, since neither loop consults scanner.Err()
after the loop, the two endings are indistinguishable to this code (see the
C3 theorem). -/
inductive Event where
  | line (l : Bytes)
  | fail (e : GoErr)

/-- How the underlying reader ends a scan: clean end of input; a Read that
returns its error together with final data, which bufio surfaces as one more
Scan() = true iteration with scanner.Err() already set; or a Read that
returns its error with no data (the common I/O failure, e.g. failing at a
line boundary), which bufio surfaces only as Scan() = false. -/
inductive ScanEnd where
  | eof
  | errWithData (e : GoErr)
  | errAtBoundary (e : GoErr)

/-- The event stream a bufio.Scanner presents to the scan loops: the lines
delivered before the end, then — only in the errWithData case — one
iteration on which the in-loop Err() check can fire.  An errAtBoundary
failure contributes no event at all: Scan() just returns false, exactly as
at clean end of input. -/
def scanEvents (pre : List Bytes) (e : ScanEnd) : List Event :=
  pre.map .line ++
    match e with
    | .eof => []
    | .errWithData err => [.fail err]
    | .errAtBoundary _ => []

/-- The test `result.Data != nil || result.Errors != nil` of parser.go. -/
def nonEmptyRes (r : Result) : Bool := r.Data.isSome || !r.Errors.isEmpty

/-- The test `p.stopMatch != nil && p.stopMatch.Match(line)` (and the analogous test
for any optional boundary pattern). -/
def optMatch (o : Option CompiledRegex) (l : Bytes) : Bool :=
  match o with
  | some c => c.isMatch l
  | none => false

/-- Whether both skip and resume patterns are configured: only then does the
skip/resume block of the scan loops run. -/
def skipBoth (p : Parser) : Bool := p.skipMatch.isSome && p.resumeMatch.isSome

/-- The two sequential flag updates of the skip/resume block: a skip match
sets the flag, then a resume match on the same line clears it. -/
def afterSkipFlag (p : Parser) (skip : Bool) (l : Bytes) : Bool :=
  match p.skipMatch, p.resumeMatch with
  | some sk, some rm =>
    let s1 := if sk.isMatch l then true else skip
    if rm.isMatch l then false else s1
  | _, _ => skip

/-- handleAllSubmatch of parser.go: the first capture group of every match,
prefixed by a placeholder for the dropped full match; nil when there is no
match. -/
def handleAllSubmatch (rx : CompiledRegex) (data : Bytes) : Option (List Bytes) :=
  let subs := rx.findAllSubmatch data
  if subs.length = 0 then none
  else some ([] :: subs.map fun s => (s.get? 1).getD [])

/-- The per-line record build of parse (Mode A): each rule parses its
positional capture group; errors are appended and appendJSON runs for every
rule regardless of error. -/
def buildResultA (lib : TimeLib) (rules : List Rule) (groups : List Bytes) : Result :=
  (rules.zip groups).foldl
    (fun res rg =>
      let pr := RuleParse lib rg.1 rg.2
      let errs := match pr.2.2 with
        | some e => res.Errors ++ [e]
        | none => res.Errors
      { Data := some (appendJSON res.Data rg.1.config.Name (pr.1.getD [])), Errors := errs })
    ⟨none, []⟩

/-- The scan loop of parse (Mode A) over the event stream, returning the
records delivered to the callback in order.  A record is in the list exactly
when cb was invoked on it; a false callback return, a stop match and a read
failure all end the scan. -/
def parseA (p : Parser) (rx : CompiledRegex) (lib : TimeLib) (cb : Result → Bool) :
    Bool → List Event → List Result
  | _, [] => []
  | _, .fail e :: _ => [⟨none, [e]⟩]
  | skip, .line l :: rest =>
    if optMatch p.stopMatch l then []
    else
      let skip := afterSkipFlag p skip l
      if skipBoth p && skip then parseA p rx lib cb skip rest
      else
        let m := if p.config.FindAll then handleAllSubmatch rx l else rx.findSubmatch l
        match m with
        | none => parseA p rx lib cb skip rest
        | some m =>
          let m := m.drop 1
          if m.length ≠ p.rules.length then
            let r : Result := ⟨none, [.invalidParsersNumber]⟩
            if cb r then r :: parseA p rx lib cb skip rest else [r]
          else
            let r := buildResultA lib p.rules m
            if cb r then r :: parseA p rx lib cb skip rest else [r]

/-- The body of the parseSet rules loop for one rule: skip the rule when its
name already occurs anywhere in the accumulated buffer (a raw bytes.Index
substring test), otherwise parse the line; an error is collected without
writing, a successful match writes the field. -/
def applyRule (lib : TimeLib) (l : Bytes) (res : Result) (rl : Rule) : Result :=
  if bytesIndex (res.Data.getD []) rl.config.Name > -1 then res
  else
    let pr := RuleParse lib rl l
    match pr.2.2 with
    | some e => { res with Errors := res.Errors ++ [e] }
    | none =>
      if pr.2.1 then
        { res with Data := some (appendJSON res.Data rl.config.Name (pr.1.getD [])) }
      else res

/-- The parseSet rules loop over all rules of the parser. -/
def applyRules (lib : TimeLib) (rules : List Rule) (res : Result) (l : Bytes) : Result :=
  rules.foldl (applyRule lib l) res

/-- The scan loop of parseSet (Mode B): blank lines are dropped; a stop
match breaks out to the final flush; the skip/resume block mirrors Mode A;
a start match flushes a nonempty pending record and opens a fresh one, then
the rules loop runs on the line; end of input flushes a nonempty pending
record.  The returned list holds the records delivered to the callback. -/
def parseSetLoop (p : Parser) (sm : CompiledRegex) (lib : TimeLib) (cb : Result → Bool) :
    Result → Bool → List Event → List Result
  | res, _, [] => if nonEmptyRes res then [res] else []
  | _, _, .fail e :: _ => [⟨none, [e]⟩]
  | res, skip, .line l :: rest =>
    if l.length = 0 then parseSetLoop p sm lib cb res skip rest
    else if optMatch p.stopMatch l then if nonEmptyRes res then [res] else []
    else
      let skip := afterSkipFlag p skip l
      if skipBoth p && skip then parseSetLoop p sm lib cb res skip rest
      else
        if sm.isMatch l then
          if nonEmptyRes res then
            if cb res then
              res :: parseSetLoop p sm lib cb (applyRules lib p.rules ⟨none, []⟩ l) skip rest
            else [res]
          else parseSetLoop p sm lib cb (applyRules lib p.rules ⟨none, []⟩ l) skip rest
        else parseSetLoop p sm lib cb (applyRules lib p.rules res l) skip rest

/-- parseSet of parser.go.  The nil-startMatch branch is unreachable through
ParseWith on a parser built by New (New errors with errNilStartRegex before
producing such a parser); the Go code would dereference nil there. -/
def parseSet (p : Parser) (lib : TimeLib) (cb : Result → Bool) (evs : List Event) :
    List Result :=
  match p.startMatch with
  | none => []
  | some sm => parseSetLoop p sm lib cb ⟨none, []⟩ false evs

/-- parse of parser.go (Mode A).  The nil-regex branch is unreachable: the
ParseWith dispatch sends nil-regex parsers to parseSet. -/
def parse (p : Parser) (lib : TimeLib) (cb : Result → Bool) (evs : List Event) :
    List Result :=
  match p.regex with
  | none => []
  | some rx => parseA p rx lib cb false evs

/-- ParseWith of parser.go: dispatch on whether a combined regex was
compiled. -/
def ParseWith (p : Parser) (lib : TimeLib) (cb : Result → Bool) (evs : List Event) :
    List Result :=
  if p.regex.isNone then parseSet p lib cb evs else parse p lib cb evs

/-! ## Concrete regex interpretations and scenario inputs

The abstract `CompiledRegex` bundles below implement the semantics of the
concrete Go patterns used in the scenarios: a plain literal pattern matches
by substring containment, `(\d+)` captures the leftmost maximal digit run,
and `key(\w+)` captures the word run following the first occurrence of the
literal `key`. -/

/-- Leftmost maximal digit run of a line, if any: the capture of `(\d+)`. -/
def digitRunCap (l : Bytes) : Option Bytes :=
  match l.dropWhile (fun c => !isDigitB c) with
  | [] => none
  | c :: rest => some (c :: rest.takeWhile isDigitB)

/-- The compiled form of the pattern `(\d+)`. -/
def rexDigits : CompiledRegex :=
  { isMatch := fun l => (digitRunCap l).isSome
    findSubmatch := fun l => (digitRunCap l).map fun ds => [ds, ds]
    findAllSubmatch := fun l => ((digitRunCap l).map fun ds => [[ds, ds]]).getD []
    numSubexp := 1 }

/-- The compiled form of a literal pattern: matches by containment. -/
def literalRegex (pat : Bytes) : CompiledRegex :=
  { isMatch := fun l => bytesIndex l pat > -1
    findSubmatch := fun _ => none
    findAllSubmatch := fun _ => []
    numSubexp := 0 }

/-- Go regexp `\w`: ASCII letters, digits and underscore. -/
def isWordChar (c : Nat) : Bool :=
  isDigitB c || (97 ≤ c && c ≤ 122) || (65 ≤ c && c ≤ 90) || c == 95

/-- The word run following the first occurrence of `key`, if nonempty: the
capture of `key(\w+)` on the lines used below. -/
def wordRunAfter (key l : Bytes) : Option Bytes :=
  match subPos key l with
  | none => none
  | some i =>
    let w := (l.drop (i + key.length)).takeWhile isWordChar
    if w = [] then none else some w

/-- The compiled form of the pattern `key(\w+)`. -/
def keyCapture (key : Bytes) : CompiledRegex :=
  { isMatch := fun l => (wordRunAfter key l).isSome
    findSubmatch := fun l => (wordRunAfter key l).map fun w => [key ++ w, w]
    findAllSubmatch := fun l => ((wordRunAfter key l).map fun w => [[key ++ w, w]]).getD []
    numSubexp := 1 }

/-- A concrete compile function: the digit pattern of the scenario rules
compiles to `rexDigits`, both key-capture patterns to `keyCapture`, every
other pattern to its literal containment matcher. -/
def compile0 (pat : Bytes) : Except GoErr CompiledRegex :=
  if pat = strBytes "(\\d+)" then .ok rexDigits
  else if pat = strBytes "k=(\\w+)" then .ok (keyCapture (strBytes "k="))
  else if pat = strBytes "n=(\\d+)" then .ok (keyCapture (strBytes "n="))
  else .ok (literalRegex pat)

/-- A trivial time library: every time/duration conversion errors.  No
scenario below uses a time or duration rule, so this choice is never
observable. -/
def lib0 : TimeLib :=
  { parseTime := fun _ _ _ => (none, some .invalidDstFormat)
    parseDuration := fun _ _ _ => (none, some .invalidDstFormat) }

/-- The always-continue consumer callback. -/
def cbT : Result → Bool := fun _ => true

/-- Rule config "a": integer field fed by the digit pattern. -/
def rcA : RuleConfig := ⟨strBytes "a", tInt, [], [], strBytes "(\\d+)"⟩

/-- The compiled rule for `rcA`. -/
def rA : Rule := ⟨some rexDigits, rcA⟩

/-- A data-size rule converting to kibibytes with no explicit source unit. -/
def cfgDS : RuleConfig := ⟨strBytes "ds", tDataSize, [], strBytes "kib", []⟩

/-- C1 failing input: only `Regex` set, `StartMatch` empty — the boundary
invariant of the spec is satisfied, yet New fails (see the C1 theorem). -/
def cfg1 : Config :=
  { FindAll := false, StartMatch := [], StopMatch := [], SkipMatch := [],
    ResumeMatch := [], Regex := strBytes "(\\d+)", Rules := [rcA] }

/-- Mode B config with start and stop patterns. -/
def cfg2 : Config :=
  { FindAll := false, StartMatch := strBytes "start", StopMatch := strBytes "stop",
    SkipMatch := [], ResumeMatch := [], Regex := [], Rules := [rcA] }

/-- The parser New builds from `cfg2` (construction succeeds). -/
def p2 : Parser :=
  match New compile0 cfg2 with
  | .ok p => p
  | .error _ => ⟨none, none, none, none, none, [], cfg2⟩

/-- C2 input: a line with extractable data, then a stop-matching line. -/
def ev2 : List Event :=
  [.line (strBytes "start"), .line (strBytes "v 5"), .line (strBytes "stop")]

/-- C4 failing input: both a skip and a resume pattern configured. -/
def cfg4 : Config :=
  { FindAll := false, StartMatch := strBytes "start", StopMatch := [],
    SkipMatch := strBytes "skip", ResumeMatch := strBytes "res", Regex := [],
    Rules := [rcA] }

/-- The parser New builds from `cfg4`. -/
def p4 : Parser :=
  match New compile0 cfg4 with
  | .ok p => p
  | .error _ => ⟨none, none, none, none, none, [], cfg4⟩

/-- The parser the C4 claim describes: skip and resume patterns wired to
their own fields and no stop pattern.  New cannot produce this parser. -/
def p4Fix : Parser :=
  { p4 with stopMatch := none, resumeMatch := some (literalRegex (strBytes "res")) }

/-- C4 input: a start line, a line matching both skip and resume patterns,
then a line with extractable data. -/
def ev4 : List Event :=
  [.line (strBytes "start"), .line (strBytes "skip res"), .line (strBytes "v 5")]

/-- A two-capture combined pattern against a single-rule parser, for the
Mode A capture-count mismatch of C5. -/
def rex2 : CompiledRegex :=
  { isMatch := fun l => l = strBytes "x 1 2"
    findSubmatch := fun l =>
      if l = strBytes "x 1 2" then some [strBytes "1 2", strBytes "1", strBytes "2"]
      else none
    findAllSubmatch := fun l =>
      if l = strBytes "x 1 2" then [[strBytes "1 2", strBytes "1", strBytes "2"]] else []
    numSubexp := 2 }

/-- A Mode A parser built directly (through ParseWith, New-built parsers can
never reach parse: its regex field is never assigned — the C1/C4 defect). -/
def pA : Parser :=
  { startMatch := none, stopMatch := none, skipMatch := none, resumeMatch := none,
    regex := some rex2, rules := [rA]
    config := { FindAll := false, StartMatch := [], StopMatch := [], SkipMatch := [],
                ResumeMatch := [], Regex := strBytes "(\\d) (\\d)", Rules := [rcA] } }

/-- Rule "b": integer field fed by `n=(\w+)`-style capture. -/
def rcB : RuleConfig := ⟨strBytes "b", tInt, [], [], strBytes "n=(\\d+)"⟩

/-- The compiled rule for `rcB`. -/
def rB : Rule := ⟨some (keyCapture (strBytes "n=")), rcB⟩

/-- Mode B parser for the C6 error-then-success scenario. -/
def p6 : Parser :=
  { startMatch := some (literalRegex (strBytes "start")), stopMatch := none,
    skipMatch := none, resumeMatch := none, regex := none, rules := [rB]
    config := { FindAll := false, StartMatch := strBytes "start", StopMatch := [],
                SkipMatch := [], ResumeMatch := [], Regex := [], Rules := [rcB] } }

/-- C6 input: the b-field first fails conversion ("n=x"), then succeeds. -/
def ev6 : List Event :=
  [.line (strBytes "start"), .line (strBytes "n=x"), .line (strBytes "n=7")]

/-- C6 input: the b-field succeeds twice; the first success wins. -/
def ev6b : List Event :=
  [.line (strBytes "start"), .line (strBytes "n=7"), .line (strBytes "n=8")]

/-- A rule whose pattern can match with an empty capture (`e=(\w*)` matching
a bare "e="), typed int so that any attempted conversion would error. -/
def rcE : RuleConfig := ⟨strBytes "e", tInt, [], [], strBytes "e=(\\w*)"⟩

/-- The compiled form of `e=(\w*)`: on the bare line "e=" the full match is
"e=" and the capture group is empty. -/
def rexEmptyCap : CompiledRegex :=
  { isMatch := fun l => bytesIndex l (strBytes "e=") > -1
    findSubmatch := fun l =>
      if l = strBytes "e=" then some [strBytes "e=", []]
      else ((wordRunAfter (strBytes "e=") l).map fun w => [strBytes "e=" ++ w, w])
    findAllSubmatch := fun _ => []
    numSubexp := 1 }

/-- The compiled rule for `rcE`. -/
def rE : Rule := ⟨some rexEmptyCap, rcE⟩

/-- String rule "a" fed by `k=(\w+)`, for the C10 scenario. -/
def rcS : RuleConfig := ⟨strBytes "a", tString, [], [], strBytes "k=(\\w+)"⟩

/-- The compiled rule for `rcS`. -/
def rS : Rule := ⟨some (keyCapture (strBytes "k=")), rcS⟩

/-- Mode B parser for C10: a string field "a" and an int field "b". -/
def p10 : Parser :=
  { startMatch := some (literalRegex (strBytes "start")), stopMatch := none,
    skipMatch := none, resumeMatch := none, regex := none, rules := [rS, rB]
    config := { FindAll := false, StartMatch := strBytes "start", StopMatch := [],
                SkipMatch := [], ResumeMatch := [], Regex := [], Rules := [rcS, rcB] } }

/-- C10 input: field "a" captures the text "b" on the start line; the later
line would populate field "b". -/
def ev10 : List Event := [.line (strBytes "start k=b"), .line (strBytes "n=7")]

/-- The record body the C10 scenario accumulates: the value of field a is the string
"b", so the byte sequence of field name "b" occurs inside a value. -/
def dataAB : Bytes := strBytes "\x7b\"a\":\"b\"\x7d"

/-! ## Helper lemmas -/

/-- A rule whose name occurs as a raw substring of the accumulated buffer is
skipped by the parseSet rules loop: the state is returned unchanged. -/
theorem applyRule_skip_of_found (lib : TimeLib) (l : Bytes) (res : Result) (rl : Rule)
    (h : bytesIndex (res.Data.getD []) rl.config.Name > -1) :
    applyRule lib l res rl = res := by
  unfold applyRule
  rw [if_pos h]

theorem isPrefixB_append (n y : Bytes) : isPrefixB n (n ++ y) = true := by
  induction n with
  | nil => simp [isPrefixB]
  | cons a t ih => simpa [isPrefixB] using ih

theorem subPos_isSome_of_isPrefixB (n h : Bytes) (hp : isPrefixB n h = true) :
    (subPos n h).isSome = true := by
  cases h with
  | nil => simp [subPos, hp]
  | cons a t => simp [subPos, hp]

theorem subPos_isSome_cons (n t : Bytes) (a : Nat) (h : (subPos n t).isSome = true) :
    (subPos n (a :: t)).isSome = true := by
  unfold subPos
  split
  · rfl
  · simpa using h

/-- A byte string embedded between two others is found by `subPos`. -/
theorem subPos_isSome_embed (x n y : Bytes) : (subPos n (x ++ n ++ y)).isSome = true := by
  induction x with
  | nil => exact subPos_isSome_of_isPrefixB n (n ++ y) (isPrefixB_append n y)
  | cons a t ih => simpa using subPos_isSome_cons n (t ++ n ++ y) a ih

theorem bytesIndex_pos_of_subPos (h n : Bytes) (hs : (subPos n h).isSome = true) :
    bytesIndex h n > -1 := by
  unfold bytesIndex
  cases hp : subPos n h with
  | none => rw [hp] at hs; simp at hs
  | some i =>
    show (i : Int) > -1
    omega

/-- bytes.Index finds an embedded occurrence. -/
theorem bytesIndex_embed (x n y : Bytes) : bytesIndex (x ++ n ++ y) n > -1 :=
  bytesIndex_pos_of_subPos _ n (subPos_isSome_embed x n y)

/-- The buffer appendJSON actually extends: the initialized empty object
when the incoming buffer is nil or empty, the incoming buffer otherwise. -/
def jBase (d : Option Bytes) : Bytes :=
  if (d.getD []).length = 0 then [123, 125] else d.getD []

/-- Closed form of appendJSON, exposing the key between its quotes and the
bytes that follow it. -/
theorem appendJSON_eq (d : Option Bytes) (k v : Bytes) :
    appendJSON d k v =
      ((jBase d).take ((jBase d).length - 1) ++
        (if (jBase d).length > 2 then [44] else []) ++ [34]) ++ k ++
      (34 :: 58 :: (v ++ (jBase d).drop ((jBase d).length - 1))) := by
  simp [appendJSON, jBase, List.append_assoc]

/-- appendJSON embeds the key into the buffer, with at least the closing
quote, the colon and the final brace after it. -/
theorem appendJSON_embeds (d : Option Bytes) (k v : Bytes) :
    ∃ x y, appendJSON d k v = x ++ k ++ y ∧ y ≠ [] :=
  ⟨_, _, appendJSON_eq d k v, by simp⟩

/-- Any later appendJSON keeps an embedded occurrence that does not touch
the final byte of the buffer. -/
theorem appendJSON_preserves_embed (d n k v : Bytes)
    (h : ∃ x y, d = x ++ n ++ y ∧ y ≠ []) :
    ∃ x y, appendJSON (some d) k v = x ++ n ++ y ∧ y ≠ [] := by
  obtain ⟨x, y, rfl, hy⟩ := h
  have hylen : 1 ≤ y.length := List.length_pos.mpr hy
  have hlen : (x ++ n ++ y).length = x.length + n.length + y.length := by
    simp only [List.length_append]
  have hb : jBase (some (x ++ n ++ y)) = x ++ n ++ y := by
    unfold jBase
    rw [if_neg]
    · rfl
    · simp only [Option.getD_some]
      omega
  rw [appendJSON_eq, hb]
  have hxn : (x ++ n).length ≤ (x ++ n ++ y).length - 1 := by
    simp only [List.length_append] at hlen ⊢
    omega
  rw [List.take_append_eq_append_take, List.take_of_length_le hxn]
  refine ⟨x, y.take ((x ++ n ++ y).length - 1 - (x ++ n).length) ++
    (if (x ++ n ++ y).length > 2 then [44] else []) ++ [34] ++ k ++
    (34 :: 58 :: (v ++ (x ++ n ++ y).drop ((x ++ n ++ y).length - 1))), ?_, ?_⟩
  · simp [List.append_assoc]
  · simp

/-- A conversion error in the parseSet rules loop never writes data: the
Data field of the state is unchanged. -/
theorem applyRule_err_data_unchanged (lib : TimeLib) (l : Bytes) (res : Result) (rl : Rule)
    (h : ((RuleParse lib rl l).2.2).isSome = true) :
    (applyRule lib l res rl).Data = res.Data := by
  unfold applyRule
  split
  · rfl
  · cases hp : (RuleParse lib rl l).2.2 with
    | none => rw [hp] at h; simp at h
    | some e => simp [hp]

theorem except_bind_ok {α β : Type} (a : α) (f : α → Except GoErr β) :
    Except.bind (.ok a) f = f a := rfl

theorem exceptIsOk_bind_false {α β : Type} (e : Except GoErr α) (f : α → Except GoErr β)
    (h : ∀ a, (f a).isOk = false) : (Except.bind e f).isOk = false := by
  cases e with
  | error e => rfl
  | ok a => exact h a

/-- The jsonString loop is the per-byte escaping map, concatenated. -/
theorem jsonStringAux_eq (s : Bytes) : jsonStringAux s = (s.map escByte).flatten := by
  induction s with
  | nil => rfl
  | cons c t ih => simp [jsonStringAux, ih]

/-! ## The claims -/

/-- C1 (code_bug): the spec requires that a config whose boundary condition
is met by `regex` alone (no `start_match`) constructs successfully, and the
source documents `Regex` as the combined extraction pattern; but New compiles
`Regex` into `p.stopMatch` (parser.go:89) and never assigns `p.regex`, so its
final boundary check sees both `p.regex` and `p.startMatch` nil and New
fails with errNilStartRegex.  First conjunct: the concrete failing input —
a valid one-rule config with only `Regex` set is rejected.  Second conjunct:
under every compile function, no config with an empty `start_match` can ever
construct, no matter what `regex` it sets.  The remaining conjuncts confirm
the true parts of the claim: a duplicate rule name and a config with neither
pattern both fail deterministically. -/
theorem c1_regex_only_construction_fails :
    New compile0 cfg1 = .error .nilStartRegex
    ∧ (∀ (compile : Bytes → Except GoErr CompiledRegex) (cfg : Config),
        (New compile { cfg with StartMatch := [] }).isOk = false)
    ∧ New compile0 { cfg2 with Rules := [rcA, rcA] } = .error .repeatedRuleName
    ∧ New compile0 { cfg1 with Regex := [] } = .error .nilStartRegex := by
  refine ⟨rfl, ?_, rfl, rfl⟩
  intro compile cfg
  have h0 : compileOpt compile ({ cfg with StartMatch := [] } : Config).StartMatch =
      .ok (none : Option CompiledRegex) := by
    simp [compileOpt]
  unfold New
  rw [h0]
  simp only [except_bind_ok]
  refine exceptIsOk_bind_false _ _ fun a => ?_
  refine exceptIsOk_bind_false _ _ fun b => ?_
  refine exceptIsOk_bind_false _ _ fun c => ?_
  refine exceptIsOk_bind_false _ _ fun d => ?_
  split
  · rfl
  · exact exceptIsOk_bind_false _ _ fun rules => rfl

/-- C2 counterexample: a Mode B scan whose pending Record holds data when a
stop-matching line arrives delivers that Record — it is not discarded.  The
parser is built by New from a start/stop config; the input is a start line,
a data line and a stop line; the scan output is exactly the partial Record
(third conjunct shows that Record is what the rules loop had accumulated
before the stop line; second conjunct shows the stop pattern matched). -/
theorem c2_stop_delivers_pending_record :
    parseSet p2 lib0 cbT ev2 = [⟨some (strBytes "\x7b\"a\":5\x7d"), []⟩]
    ∧ optMatch p2.stopMatch (strBytes "stop") = true
    ∧ applyRules lib0 p2.rules ⟨none, []⟩ (strBytes "v 5") =
        ⟨some (strBytes "\x7b\"a\":5\x7d"), []⟩ :=
  ⟨by decide, by decide, by decide⟩

/-- C2 (corrected): on a stop-pattern match in Mode B the scan stops reading
immediately — the rest of the input is never examined — but the pending
partial Record is not discarded: the break lands on the end-of-scan flush
(parser.go:338-343), which delivers the Record iff it holds any data or
errors. -/
theorem c2_stop_terminates_then_flushes (p : Parser) (sm : CompiledRegex) (lib : TimeLib)
    (cb : Result → Bool) (res : Result) (skip : Bool) (l : Bytes) (rest : List Event)
    (hne : ¬ l.length = 0) (hstop : optMatch p.stopMatch l = true) :
    parseSetLoop p sm lib cb res skip (.line l :: rest) =
      if nonEmptyRes res then [res] else [] := by
  simp [parseSetLoop, hne, hstop]

/-- C2 witness: the stop-flush theorem applied to a concrete pending Record
and stop line. -/
theorem c2_stop_terminates_then_flushes_witness :
    ¬ (strBytes "stop").length = 0
    ∧ optMatch p2.stopMatch (strBytes "stop") = true
    ∧ parseSetLoop p2 (literalRegex (strBytes "start")) lib0 cbT
        ⟨some (strBytes "\x7b\"a\":5\x7d"), []⟩ false [.line (strBytes "stop")] =
      if nonEmptyRes (⟨some (strBytes "\x7b\"a\":5\x7d"), []⟩ : Result)
      then [⟨some (strBytes "\x7b\"a\":5\x7d"), []⟩] else [] :=
  ⟨by decide, by decide,
    c2_stop_terminates_then_flushes p2 (literalRegex (strBytes "start")) lib0 cbT _ false _ _
      (by decide) (by decide)⟩

/-- C3 (code_bug): the claim — every read failure delivers exactly one
error-only Record and stops the scan — fails on the code for the common
bufio error path.  Both loops check scanner.Err() only INSIDE the loop
(parser.go:201, 276) and never after it, while bufio.Scanner reports a Read
error that arrives with no data by making Scan() return false.  First
conjunct: such an errAtBoundary failure presents the very same event stream
as clean end of input, for every input prefix — the error is invisible to
this code.  Second and third conjuncts evaluate the failing input: a Mode B
scan of "start", "v 5" ended by a boundary read error flushes the pending
partial Record with an EMPTY error list and delivers no error-only Record;
a Mode A scan ended the same way delivers nothing at all.  The last two
conjuncts cover the only path the in-loop check can observe (Read returning
data together with its error, surfacing as one Scan-true iteration with
Err() set): there the code does deliver exactly one error-only Record,
drops any pending record and stops — the narrow case in which the claim
holds. -/
theorem c3_silent_read_failure_no_error_record :
    (∀ (pre : List Bytes) (e : GoErr),
        scanEvents pre (.errAtBoundary e) = scanEvents pre .eof)
    ∧ parseSet p2 lib0 cbT
        (scanEvents [strBytes "start", strBytes "v 5"] (.errAtBoundary (.ioErr 7))) =
        [⟨some (strBytes "\x7b\"a\":5\x7d"), []⟩]
    ∧ parseA pA rex2 lib0 cbT false
        (scanEvents [strBytes "hello"] (.errAtBoundary (.ioErr 7))) = []
    ∧ (∀ (p : Parser) (rx : CompiledRegex) (lib : TimeLib) (cb : Result → Bool)
      (skip : Bool) (e : GoErr) (rest : List Event),
        parseA p rx lib cb skip (.fail e :: rest) = [⟨none, [e]⟩])
    ∧ (∀ (p : Parser) (sm : CompiledRegex) (lib : TimeLib) (cb : Result → Bool)
      (res : Result) (skip : Bool) (e : GoErr) (rest : List Event),
        parseSetLoop p sm lib cb res skip (.fail e :: rest) = [⟨none, [e]⟩]) :=
  ⟨fun _ _ => rfl, by decide, by decide,
   fun _ _ _ _ _ _ _ => rfl, fun _ _ _ _ _ _ _ _ => rfl⟩

/-- C4 (code_bug): New accepts a config carrying both skip and resume
patterns, but compiles the resume pattern into `p.stopMatch` (parser.go:82),
leaving `p.resumeMatch` nil.  A line matching both patterns therefore acts
as a stop line: the scan of (start, "skip res", "v 5") emits nothing — the
skip/resume block never runs and the data line is never reached — although
the claim (and the own comments of the source) say the doubly-matching line is
not skipped and scanning continues.  The last conjunct runs the parser the
claim describes, with resume wired to its own field: there the scan of the
same input does deliver the record extracted after the doubly-matching
line. -/
theorem c4_resume_pattern_acts_as_stop :
    (New compile0 cfg4).isOk = true
    ∧ p4.resumeMatch = none
    ∧ optMatch p4.skipMatch (strBytes "skip res") = true
    ∧ optMatch p4.stopMatch (strBytes "skip res") = true
    ∧ parseSet p4 lib0 cbT ev4 = []
    ∧ RuleParse lib0 rA (strBytes "v 5") = (some (strBytes "5"), true, none)
    ∧ parseSet p4Fix lib0 cbT ev4 = [⟨some (strBytes "\x7b\"a\":5\x7d"), []⟩] :=
  ⟨by decide, rfl, by decide, by decide, by decide, by decide, by decide⟩

/-- C5 (confirmed): in Mode A, a surviving line on which the combined
pattern matches but yields a capture-group count different from the rule
count makes the loop deliver the Record holding only errInvalidParsersNumber
and no data, and (with a continuing consumer) proceed with the rest of the
input. -/
theorem c5_capture_count_mismatch_error_only (p : Parser) (rx : CompiledRegex)
    (lib : TimeLib) (cb : Result → Bool) (skip : Bool) (l : Bytes) (rest : List Event)
    (m : List Bytes)
    (hstop : optMatch p.stopMatch l = false)
    (hskip : (skipBoth p && afterSkipFlag p skip l) = false)
    (hm : (if p.config.FindAll then handleAllSubmatch rx l else rx.findSubmatch l) = some m)
    (hlen : (m.drop 1).length ≠ p.rules.length)
    (hcb : cb ⟨none, [.invalidParsersNumber]⟩ = true) :
    parseA p rx lib cb skip (.line l :: rest) =
      ⟨none, [.invalidParsersNumber]⟩ :: parseA p rx lib cb (afterSkipFlag p skip l) rest := by
  have hlen2 : m.length - 1 ≠ p.rules.length := by simpa using hlen
  simp [parseA, hstop, hskip, hm, hcb, hlen2]

/-- C5 witness: a two-capture pattern against a one-rule Mode A parser. -/
theorem c5_capture_count_mismatch_error_only_witness :
    optMatch pA.stopMatch (strBytes "x 1 2") = false
    ∧ (skipBoth pA && afterSkipFlag pA false (strBytes "x 1 2")) = false
    ∧ (if pA.config.FindAll then handleAllSubmatch rex2 (strBytes "x 1 2")
        else rex2.findSubmatch (strBytes "x 1 2")) =
        some [strBytes "1 2", strBytes "1", strBytes "2"]
    ∧ ([strBytes "1 2", strBytes "1", strBytes "2"].drop 1).length ≠ pA.rules.length
    ∧ cbT ⟨none, [.invalidParsersNumber]⟩ = true
    ∧ parseA pA rex2 lib0 cbT false [.line (strBytes "x 1 2")] =
        ⟨none, [.invalidParsersNumber]⟩ ::
          parseA pA rex2 lib0 cbT (afterSkipFlag pA false (strBytes "x 1 2")) [] :=
  ⟨by decide, by decide, by decide, by decide, by decide,
   c5_capture_count_mismatch_error_only pA rex2 lib0 cbT false (strBytes "x 1 2") []
     [strBytes "1 2", strBytes "1", strBytes "2"]
     (by decide) (by decide) (by decide) (by decide) (by decide)⟩

/-- C6 (confirmed): first successful match per field wins in Mode B.
(1) A rule whose name occurs in the accumulated buffer is skipped without
parsing; (2) writing a field embeds its name in the buffer short of the
final byte; (3) later writes preserve such an occurrence; (4) an embedded
occurrence is found by the substring test — together: once written, a field
is ignored for the rest of the Record.  (5) A conversion error never writes
Data, so it does not count as "field written"; (6) concretely, after a
failed conversion for field b a later successful match still lands, while
(7) after a successful write a later successful match is ignored.  (8) A
start-pattern match flushes the pending Record and runs the rules on a
fresh empty Record, resetting the first-match state for all fields. -/
theorem c6_first_success_per_field_wins :
    (∀ (lib : TimeLib) (l : Bytes) (res : Result) (rl : Rule),
        bytesIndex (res.Data.getD []) rl.config.Name > -1 → applyRule lib l res rl = res)
    ∧ (∀ (d : Option Bytes) (k v : Bytes), ∃ x y, appendJSON d k v = x ++ k ++ y ∧ y ≠ [])
    ∧ (∀ (d n k v : Bytes), (∃ x y, d = x ++ n ++ y ∧ y ≠ []) →
        ∃ x y, appendJSON (some d) k v = x ++ n ++ y ∧ y ≠ [])
    ∧ (∀ (x n y : Bytes), bytesIndex (x ++ n ++ y) n > -1)
    ∧ (∀ (lib : TimeLib) (l : Bytes) (res : Result) (rl : Rule),
        ((RuleParse lib rl l).2.2).isSome = true → (applyRule lib l res rl).Data = res.Data)
    ∧ parseSet p6 lib0 cbT ev6 =
        [⟨some (strBytes "\x7b\"b\":7\x7d"),
          [.wrapped (strBytes "b") (strBytes "x") (.badNum (strBytes "x"))]⟩]
    ∧ parseSet p6 lib0 cbT ev6b = [⟨some (strBytes "\x7b\"b\":7\x7d"), []⟩]
    ∧ (∀ (p : Parser) (sm : CompiledRegex) (lib : TimeLib) (cb : Result → Bool)
        (res : Result) (skip : Bool) (l : Bytes) (rest : List Event),
        ¬ l.length = 0 → optMatch p.stopMatch l = false →
        (skipBoth p && afterSkipFlag p skip l) = false → sm.isMatch l = true →
        nonEmptyRes res = true → cb res = true →
        parseSetLoop p sm lib cb res skip (.line l :: rest) =
          res :: parseSetLoop p sm lib cb (applyRules lib p.rules ⟨none, []⟩ l)
            (afterSkipFlag p skip l) rest) := by
  refine ⟨applyRule_skip_of_found, appendJSON_embeds, appendJSON_preserves_embed,
    bytesIndex_embed, applyRule_err_data_unchanged, by decide, by decide, ?_⟩
  intro p sm lib cb res skip l rest hne hstop hskip hsm hres hcb
  simp [parseSetLoop, hne, hstop, hskip, hsm, hres, hcb]

/-- C6 witness: the four hypothesis-bearing parts applied at concrete
inputs — a written field b is skipped on a later line, the embedded name is
preserved by a later append, a failed conversion leaves Data nil, and a
start line flushes the pending record and restarts from the empty one. -/
theorem c6_first_success_per_field_wins_witness :
    applyRule lib0 (strBytes "n=8") ⟨some (strBytes "\x7b\"b\":7\x7d"), []⟩ rB =
      ⟨some (strBytes "\x7b\"b\":7\x7d"), []⟩
    ∧ (∃ x y, appendJSON (some (strBytes "\x7b\"b\":7\x7d")) (strBytes "c") (strBytes "1") =
        x ++ strBytes "b" ++ y ∧ y ≠ [])
    ∧ (applyRule lib0 (strBytes "n=x") ⟨none, []⟩ rB).Data = (none : Option Bytes)
    ∧ parseSetLoop p6 (literalRegex (strBytes "start")) lib0 cbT ⟨some [122], []⟩ false
        [.line (strBytes "start")] =
      ⟨some [122], []⟩ :: parseSetLoop p6 (literalRegex (strBytes "start")) lib0 cbT
        (applyRules lib0 p6.rules ⟨none, []⟩ (strBytes "start"))
        (afterSkipFlag p6 false (strBytes "start")) [] := by
  have h := c6_first_success_per_field_wins
  exact ⟨h.1 lib0 _ _ rB (by decide),
    h.2.2.1 _ _ _ _ ⟨[123, 34], [34, 58, 55, 125], by decide, by decide⟩,
    h.2.2.2.2.1 lib0 _ _ rB (by decide),
    h.2.2.2.2.2.2.2 p6 _ lib0 cbT _ false _ _ (by decide) (by decide) (by decide)
      (by decide) (by decide) (by decide)⟩

/-- C7 (confirmed): when the pattern of a rule matches but the capture group is
empty text, rule.Parse reports matched with no value and no error — the
conversion switch is never consulted (the result is the same for every time
library and every rule type).  In the Mode B rules loop the field then
contributes its key with empty value bytes: appendJSON of an empty value
emits "key": followed directly by the closing brace, i.e. no JSON value for
that field.  The last conjuncts evaluate a concrete int-typed rule on the
bare line "e=": matched, no value, no error, and the Record body becomes
the bytes of "\x7b\"e\":\x7d". -/
theorem c7_empty_capture_matched_no_value :
    (∀ (lib : TimeLib) (rl : Rule) (rx : CompiledRegex) (l : Bytes) (m : List Bytes),
        rl.regex = some rx → rx.findSubmatch l = some m → (m.get? 1).getD [] = [] →
        RuleParse lib rl l = (none, true, none))
    ∧ (∀ k : Bytes, appendJSON none k [] = [123, 34] ++ k ++ [34, 58, 125])
    ∧ applyRule lib0 (strBytes "e=") ⟨none, []⟩ rE = ⟨some [123, 34, 101, 34, 58, 125], []⟩
    ∧ RuleParse lib0 rE (strBytes "e=") = (none, true, none) := by
  refine ⟨?_, ?_, by decide, by decide⟩
  · intro lib rl rx l m h1 h2 h3
    have h3a : m[1]?.getD [] = ([] : Bytes) := by simpa using h3
    simp [RuleParse, RuleParse.ruleParseTail, h1, h2, h3a]
  · intro k
    simp [appendJSON]

/-- C7 witness: the empty-capture theorem applied to the concrete rule rE
on the line "e=". -/
theorem c7_empty_capture_matched_no_value_witness :
    rE.regex = some rexEmptyCap
    ∧ rexEmptyCap.findSubmatch (strBytes "e=") = some [strBytes "e=", []]
    ∧ (([strBytes "e=", ([] : Bytes)].get? 1).getD [] : Bytes) = []
    ∧ RuleParse lib0 rE (strBytes "e=") = (none, true, none) :=
  ⟨rfl, by decide, by decide,
    c7_empty_capture_matched_no_value.1 lib0 rE rexEmptyCap (strBytes "e=")
      [strBytes "e=", []] rfl (by decide) (by decide)⟩

/-- C8 counterexample: unit-table lookups are not case-insensitive for the
explicit From and To fields.  With From "MIB" the source-unit lookup fails
(errInvalidSrcFormat) instead of yielding 1024, and with To "KIB" the
destination lookup fails (errInvalidDstFormat): only the inferred trailing
token is lower-cased before lookup. -/
theorem c8_explicit_unit_case_sensitive :
    parseDataSize { cfgDS with From := strBytes "MIB" } (strBytes "1mib") =
      (none, some .invalidSrcFormat)
    ∧ parseDataSize { cfgDS with To := strBytes "KIB" } (strBytes "1mib") =
      (none, some .invalidDstFormat) :=
  ⟨by decide, by decide⟩

/-- C8 (corrected): data-size conversion of "1mib" with To "kib" yields the
unquoted JSON number 1024, identically whether From is the explicit "mib"
or inferred from the trailing unit token; the inferred token is lower-cased
before lookup, so an upper-case trailing token ("1MiB") also converts — but
explicit From and To values are looked up case-sensitively against the
all-lower-case table, so upper-case From or To fail (see the
counterexample). -/
theorem c8_datasize_one_mib_to_kib :
    parseDataSize cfgDS (strBytes "1mib") = (some (strBytes "1024"), none)
    ∧ parseDataSize { cfgDS with From := strBytes "mib" } (strBytes "1mib") =
      (some (strBytes "1024"), none)
    ∧ parseDataSize cfgDS (strBytes "1MiB") = (some (strBytes "1024"), none)
    ∧ dataUnits (toLowerB (strBytes "MIB")) = some 1048576
    ∧ dataUnits (strBytes "MIB") = none
    ∧ dataUnits (strBytes "KIB") = none :=
  ⟨by decide, by decide, by decide, by decide, by decide, by decide⟩

/-- C9 (confirmed): jsonString wraps the input in double quotes and escapes
exactly the double quote, the backslash, and control bytes below 0x20: the
output is the concatenation of a per-byte escaping over the input; a byte
passes through unchanged iff it is at least 0x20 and not the quote or the
backslash (so all bytes at or above 0x20, including non-ASCII, pass
through); quote and backslash get backslash escapes; newline, form feed,
backspace, carriage return and tab get their named escapes; every other
control byte gets the four-digit hex escape with the hex table of the source. -/
theorem c9_jsonString_escape_exact :
    (∀ s : Bytes, jsonString s = [34] ++ (s.map escByte).flatten ++ [34])
    ∧ (∀ c : Nat, escByte c = [c] ↔ 0x20 ≤ c ∧ c ≠ 34 ∧ c ≠ 92)
    ∧ escByte 34 = [92, 34] ∧ escByte 92 = [92, 92]
    ∧ escByte 10 = [92, 110] ∧ escByte 12 = [92, 102] ∧ escByte 8 = [92, 98]
    ∧ escByte 13 = [92, 114] ∧ escByte 9 = [92, 116]
    ∧ (∀ c : Nat, c < 0x20 → ¬ c ∈ ([8, 9, 10, 12, 13] : List Nat) →
        escByte c = [92, 117, 48, 48, hexDigit (c / 16), hexDigit (c % 16)]) := by
  refine ⟨?_, ?_, by decide, by decide, by decide, by decide, by decide, by decide,
    by decide, ?_⟩
  · intro s
    simp [jsonString, jsonStringAux_eq]
  · intro c
    unfold escByte
    split_ifs with h1 h2 h3 h4 h5 h6 h7 h8 <;> simp_all
  · intro c hlt hmem
    have hne : c ≠ 8 ∧ c ≠ 9 ∧ c ≠ 10 ∧ c ≠ 12 ∧ c ≠ 13 := by simpa using hmem
    unfold escByte
    split_ifs <;> first | rfl | omega

/-- C9 witness: the escaping theorem applied at a concrete string, a
concrete passthrough byte and a concrete unnamed control byte. -/
theorem c9_jsonString_escape_exact_witness :
    jsonString (strBytes "ab") = [34] ++ ((strBytes "ab").map escByte).flatten ++ [34]
    ∧ escByte 97 = [97]
    ∧ escByte 1 = [92, 117, 48, 48, hexDigit (1 / 16), hexDigit (1 % 16)] := by
  have h := c9_jsonString_escape_exact
  exact ⟨h.1 _, (h.2.1 97).mpr (by decide),
    h.2.2.2.2.2.2.2.2.2 1 (by decide) (by decide)⟩

/-- C10 (confirmed): the Mode B "field already written" test is a raw
substring search of the rule name over the whole accumulated buffer.  In
the concrete run, field a captures the string "b" on the start line, so the
buffer is \x7b"a":"b"\x7d; rule b is then skipped for the rest of the Record —
its name occurs inside the value of a (third conjunct) although it was never
written as a key (fourth conjunct) — even though its pattern successfully
matches the next line (second conjunct); the scan output therefore lacks
field b entirely.  The final conjunct is the mechanism in general: whenever
the name occurs anywhere in the buffer, the step of that rule is skipped with the
state unchanged. -/
theorem c10_name_substring_skip :
    parseSet p10 lib0 cbT ev10 = [⟨some dataAB, []⟩]
    ∧ RuleParse lib0 rB (strBytes "n=7") = (some (strBytes "7"), true, none)
    ∧ bytesIndex dataAB (strBytes "b") > -1
    ∧ bytesIndex dataAB (strBytes "\"b\":") = -1
    ∧ (∀ (lib : TimeLib) (l : Bytes) (res : Result) (rl : Rule),
        bytesIndex (res.Data.getD []) rl.config.Name > -1 → applyRule lib l res rl = res) :=
  ⟨by decide, by decide, by decide, by decide, applyRule_skip_of_found⟩

/-- C10 witness: the skip mechanism applied at the concrete buffer holding
"b" only inside a value. -/
theorem c10_name_substring_skip_witness :
    applyRule lib0 (strBytes "n=7") ⟨some dataAB, []⟩ rB = ⟨some dataAB, []⟩ :=
  c10_name_substring_skip.2.2.2.2 lib0 (strBytes "n=7") ⟨some dataAB, []⟩ rB (by decide)

end Rxde
